import Mathlib

/-!
Verification development for the Extract-Build knowledge-graph pipeline
(`kg_builder`): a shallow embedding of the triplet parsers
(`prompts/prompting.py`), the validation stage (`builder.py`), the oracle
call layer (`engine.py`) and the orchestrator (`workflow.py`), together
with theorems about the behaviours the specification describes.

Python strings are modelled as `List Char`; Python tuples of strings are
modelled as `List (List Char)` so that `len()` on them is meaningful.
`str.lower`/`str.upper` are modelled on ASCII letters only (every string
the pipeline manipulates in the claims is ASCII).  `list(set(xs))` is
modelled as `List.dedup`, which returns the same set of elements; CPython
leaves the order unspecified and no theorem below depends on it.
-/

set_option maxHeartbeats 1000000

namespace KG

/-- Python strings, modelled as lists of characters. -/
abbrev PyStr := List Char

/-- Conversion from Lean string literals to the Python-string model. -/
def pyStr (s : String) : PyStr := s.toList

/-- Fuel-driven worker for Python `s.split(sep)`: non-overlapping
occurrences of the separator, scanned left to right.  The fuel only makes
the recursion structural (so that concrete runs reduce in the kernel); with
fuel at least the length of the string it never runs out. -/
def Py.splitFuel (sep : PyStr) : Nat → PyStr → List PyStr
  | _, [] => [[]]
  | 0, s => [s]
  | fuel + 1, c :: rest =>
    if sep ≠ [] ∧ sep.isPrefixOf (c :: rest) = true then
      [] :: Py.splitFuel sep fuel (List.drop sep.length (c :: rest))
    else
      match Py.splitFuel sep fuel rest with
      | [] => [[c]]
      | p :: ps => (c :: p) :: ps

/-- Python `s.split(sep)` for a non-empty separator; always returns at
least one piece. -/
def Py.split (sep : PyStr) (s : PyStr) : List PyStr :=
  Py.splitFuel sep s.length s

theorem Py.splitFuel_congr (sep : PyStr) :
    ∀ f g s, s.length ≤ f → s.length ≤ g →
      Py.splitFuel sep f s = Py.splitFuel sep g s := by
  intro f
  induction f with
  | zero =>
    intro g s hf _
    have : s = [] := List.length_eq_zero.mp (Nat.le_zero.mp hf)
    subst this
    cases g <;> rfl
  | succ f ih =>
    intro g s hf hg
    cases s with
    | nil => cases g <;> rfl
    | cons c rest =>
      cases g with
      | zero => simp at hg
      | succ g =>
        simp only [Py.splitFuel]
        by_cases hp : sep ≠ [] ∧ sep.isPrefixOf (c :: rest) = true
        · simp only [if_pos hp]
          have hsep : 1 ≤ sep.length := by
            cases sep with
            | nil => exact absurd rfl hp.1
            | cons a as => simp
          have hlen : (List.drop sep.length (c :: rest)).length ≤ rest.length := by
            simp only [List.length_drop, List.length_cons]
            omega
          have hf' : (List.drop sep.length (c :: rest)).length ≤ f := by
            simp at hf; omega
          have hg' : (List.drop sep.length (c :: rest)).length ≤ g := by
            simp at hg; omega
          rw [ih g _ hf' hg']
        · simp only [if_neg hp]
          have hf' : rest.length ≤ f := by simp at hf; omega
          have hg' : rest.length ≤ g := by simp at hg; omega
          rw [ih g rest hf' hg']

/-- The natural recursion equation of `Py.split` on a cons cell. -/
theorem Py.split_cons (sep : PyStr) (c : Char) (rest : PyStr) :
    Py.split sep (c :: rest) =
      if sep ≠ [] ∧ sep.isPrefixOf (c :: rest) = true then
        [] :: Py.split sep (List.drop sep.length (c :: rest))
      else
        match Py.split sep rest with
        | [] => [[c]]
        | p :: ps => (c :: p) :: ps := by
  show Py.splitFuel sep (rest.length + 1) (c :: rest) = _
  simp only [Py.splitFuel]
  by_cases hp : sep ≠ [] ∧ sep.isPrefixOf (c :: rest) = true
  · simp only [if_pos hp]
    have hsep : 1 ≤ sep.length := by
      cases sep with
      | nil => exact absurd rfl hp.1
      | cons a as => simp
    rw [Py.splitFuel_congr sep rest.length (List.drop sep.length (c :: rest)).length _
      (by simp only [List.length_drop, List.length_cons]; omega) (Nat.le_refl _)]
    rfl
  · simp only [if_neg hp]
    rfl

@[simp]
theorem Py.split_nil (sep : PyStr) : Py.split sep [] = [[]] := rfl

/-- Python `sub in s` (substring containment). -/
def Py.containsSub (sub : PyStr) : PyStr → Bool
  | [] => sub.isEmpty
  | c :: rest => sub.isPrefixOf (c :: rest) || Py.containsSub sub rest

/-- Python `str.strip()` (whitespace trimming at both ends). -/
def Py.strip (s : PyStr) : PyStr :=
  ((s.dropWhile Char.isWhitespace).reverse.dropWhile Char.isWhitespace).reverse

/-- ASCII model of Python `str.upper` on one character. -/
def Py.upperChar (c : Char) : Char :=
  match c with
  | 'a' => 'A' | 'b' => 'B' | 'c' => 'C' | 'd' => 'D' | 'e' => 'E' | 'f' => 'F'
  | 'g' => 'G' | 'h' => 'H' | 'i' => 'I' | 'j' => 'J' | 'k' => 'K' | 'l' => 'L'
  | 'm' => 'M' | 'n' => 'N' | 'o' => 'O' | 'p' => 'P' | 'q' => 'Q' | 'r' => 'R'
  | 's' => 'S' | 't' => 'T' | 'u' => 'U' | 'v' => 'V' | 'w' => 'W' | 'x' => 'X'
  | 'y' => 'Y' | 'z' => 'Z'
  | other => other

/-- ASCII model of Python `str.lower` on one character. -/
def Py.lowerChar (c : Char) : Char :=
  match c with
  | 'A' => 'a' | 'B' => 'b' | 'C' => 'c' | 'D' => 'd' | 'E' => 'e' | 'F' => 'f'
  | 'G' => 'g' | 'H' => 'h' | 'I' => 'i' | 'J' => 'j' | 'K' => 'k' | 'L' => 'l'
  | 'M' => 'm' | 'N' => 'n' | 'O' => 'o' | 'P' => 'p' | 'Q' => 'q' | 'R' => 'r'
  | 'S' => 's' | 'T' => 't' | 'U' => 'u' | 'V' => 'v' | 'W' => 'w' | 'X' => 'x'
  | 'Y' => 'y' | 'Z' => 'z'
  | other => other

/-- Python `str.upper` (ASCII model). -/
def Py.upper (s : PyStr) : PyStr := s.map Py.upperChar

/-- Python `str.lower` (ASCII model). -/
def Py.lower (s : PyStr) : PyStr := s.map Py.lowerChar

/-!
Model of `re.findall(r'\((.*?)\)', text)`: scan left to right; at an opening
parenthesis the non-greedy group captures up to the first closing parenthesis
(the dot of the pattern matches any character except a newline); on success
the scan resumes after the closing parenthesis, on failure at the next
character.
-/

/-- One attempted match of the parenthesized group, at a position just after
an opening parenthesis: the captured content runs to the first closing
parenthesis; a newline before one makes the match fail. -/
def takeToClose : PyStr → Option (PyStr × PyStr)
  | [] => none
  | c :: rest =>
    if c = ')' then some ([], rest)
    else if c = '\n' then none
    else
      match takeToClose rest with
      | none => none
      | some (content, rem) => some (c :: content, rem)

theorem takeToClose_length :
    ∀ s content rem, takeToClose s = some (content, rem) → rem.length < s.length := by
  intro s
  induction s with
  | nil => intro content rem h; simp [takeToClose] at h
  | cons c rest ih =>
    intro content rem h
    by_cases hc : c = ')'
    · simp [takeToClose, hc] at h
      simp [← h.2]
    · by_cases hn : c = '\n'
      · simp [takeToClose, hc, hn] at h
      · simp only [takeToClose, if_neg hc, if_neg hn] at h
        cases htc : takeToClose rest with
        | none => rw [htc] at h; exact absurd h (by simp)
        | some pr =>
          rw [htc] at h
          obtain ⟨content0, rem0⟩ := pr
          simp at h
          have := ih content0 rem0 htc
          simp [← h.2]
          omega

/-- Fuel-driven worker for the group scan; as with `Py.splitFuel` the fuel
only makes the recursion structural and never runs out when it is at least
the length of the string. -/
def findGroupsFuel : Nat → PyStr → List PyStr
  | _, [] => []
  | 0, _ => []
  | fuel + 1, c :: rest =>
    if c = '(' then
      match takeToClose rest with
      | some pr => pr.1 :: findGroupsFuel fuel pr.2
      | none => findGroupsFuel fuel rest
    else findGroupsFuel fuel rest

/-- All groups found by `re.findall(r'\((.*?)\)', text)`, in scan order. -/
def findGroups (s : PyStr) : List PyStr :=
  findGroupsFuel s.length s

theorem findGroupsFuel_congr :
    ∀ f g s, s.length ≤ f → s.length ≤ g →
      findGroupsFuel f s = findGroupsFuel g s := by
  intro f
  induction f with
  | zero =>
    intro g s hf _
    have : s = [] := List.length_eq_zero.mp (Nat.le_zero.mp hf)
    subst this
    cases g <;> rfl
  | succ f ih =>
    intro g s hf hg
    cases s with
    | nil => cases g <;> rfl
    | cons c rest =>
      cases g with
      | zero => simp at hg
      | succ g =>
        simp only [findGroupsFuel]
        by_cases hc : c = '('
        · simp only [if_pos hc]
          cases htc : takeToClose rest with
          | none =>
            exact ih g rest (by simp at hf; omega) (by simp at hg; omega)
          | some pr =>
            have := takeToClose_length rest pr.1 pr.2 (by rw [htc])
            simp [ih g pr.2 (by simp at hf; omega) (by simp at hg; omega)]
        · simp only [if_neg hc]
          exact ih g rest (by simp at hf; omega) (by simp at hg; omega)

/-- The natural recursion equation of `findGroups` on a cons cell. -/
theorem findGroups_cons (c : Char) (rest : PyStr) :
    findGroups (c :: rest) =
      if c = '(' then
        match takeToClose rest with
        | some pr => pr.1 :: findGroups pr.2
        | none => findGroups rest
      else findGroups rest := by
  show findGroupsFuel (rest.length + 1) (c :: rest) = _
  simp only [findGroupsFuel]
  by_cases hc : c = '('
  · simp only [if_pos hc]
    cases htc : takeToClose rest with
    | none => exact findGroupsFuel_congr rest.length rest.length rest (by simp) (by simp)
    | some pr =>
      have := takeToClose_length rest pr.1 pr.2 (by rw [htc])
      simp [findGroupsFuel_congr rest.length pr.2.length pr.2 (by omega) (Nat.le_refl _)]
      rfl
  · simp only [if_neg hc]
    exact findGroupsFuel_congr rest.length rest.length rest (by simp) (by simp)

@[simp]
theorem findGroups_nil : findGroups [] = [] := rfl

/-!
Facts about the Python string primitives.
-/

theorem Py.split_ne_nil (sep : PyStr) : ∀ s, Py.split sep s ≠ [] := by
  intro s
  induction s with
  | nil => simp
  | cons c rest ih =>
    rw [Py.split_cons]
    by_cases hp : sep ≠ [] ∧ sep.isPrefixOf (c :: rest) = true
    · rw [if_pos hp]
      simp
    · rw [if_neg hp]
      cases h : Py.split sep rest with
      | nil => simp
      | cons p ps => simp

/-- Python `sub in s` (non-empty `sub`) means `s.split(sub)` has at least
two pieces: the split has one more piece than there are occurrences. -/
theorem Py.two_le_split_length (sub : PyStr) (hsub : sub ≠ []) :
    ∀ s, Py.containsSub sub s = true → 2 ≤ (Py.split sub s).length := by
  intro s
  induction s with
  | nil =>
    intro h
    simp [Py.containsSub, List.isEmpty_iff] at h
    exact absurd h hsub
  | cons c rest ih =>
    intro h
    rw [Py.split_cons]
    by_cases hp : sub.isPrefixOf (c :: rest) = true
    · rw [if_pos ⟨hsub, hp⟩]
      have hne := Py.split_ne_nil sub (List.drop sub.length (c :: rest))
      have := List.length_pos.mpr hne
      simp
      omega
    · have hcond : ¬(sub ≠ [] ∧ sub.isPrefixOf (c :: rest) = true) := fun hc => hp hc.2
      rw [if_neg hcond]
      have hrest : Py.containsSub sub rest = true := by
        simp [Py.containsSub, hp] at h
        exact h
      have := ih hrest
      cases h2 : Py.split sub rest with
      | nil => exact absurd h2 (Py.split_ne_nil sub rest)
      | cons p ps =>
        rw [h2] at this
        simp at this ⊢
        omega

/-- A string not containing the separator character splits into itself. -/
theorem Py.split_eq_single (c : Char) :
    ∀ s, c ∉ s → Py.split [c] s = [s] := by
  intro s
  induction s with
  | nil => intro _; rfl
  | cons a rest ih =>
    intro h
    have hca : c ≠ a := fun hh => h (hh ▸ List.mem_cons_self a rest)
    have hcr : c ∉ rest := fun hh => h (List.mem_cons_of_mem a hh)
    rw [Py.split_cons]
    have hpre : List.isPrefixOf [c] (a :: rest) = false := by
      simp [List.isPrefixOf]
      exact hca
    rw [if_neg (by simp [hpre])]
    rw [ih hcr]

/-- The first piece of a single-character split is the text before the
first occurrence of the separator. -/
theorem Py.split_getD_zero (c : Char) :
    ∀ s, (Py.split [c] s).getD 0 [] = s.takeWhile (fun a => a != c) := by
  intro s
  induction s with
  | nil => rfl
  | cons a rest ih =>
    rw [Py.split_cons]
    by_cases hac : c = a
    · rw [if_pos ⟨by simp, by simp [List.isPrefixOf, hac]⟩]
      simp [List.takeWhile_cons, hac.symm]
    · have hpre : List.isPrefixOf [c] (a :: rest) = false := by
        simp [List.isPrefixOf]
        exact hac
      rw [if_neg (by simp [hpre])]
      cases h2 : Py.split [c] rest with
      | nil => exact absurd h2 (Py.split_ne_nil [c] rest)
      | cons p ps =>
        rw [h2] at ih
        simp at ih
        have hne : ¬(a = c) := fun hh => hac hh.symm
        simp [List.takeWhile_cons, bne_iff_ne, hne, ih]

theorem Py.containsSub_single_append (c : Char) (x y : PyStr) :
    Py.containsSub [c] (x ++ c :: y) = true := by
  induction x with
  | nil => simp [Py.containsSub, List.isPrefixOf]
  | cons a x ih => simp [Py.containsSub, ih]

/-- The last piece of a single-character split is the text after the last
occurrence of the separator. -/
theorem Py.split_getLastD_append (c : Char) (y : PyStr) (hy : c ∉ y) :
    ∀ x, (Py.split [c] (x ++ c :: y)).getLastD [] = y := by
  intro x
  induction x with
  | nil =>
    rw [List.nil_append, Py.split_cons]
    rw [if_pos ⟨by simp, by simp [List.isPrefixOf]⟩]
    simp only [List.length_cons, List.length_nil, List.drop_succ_cons, List.drop_zero]
    rw [Py.split_eq_single c y hy]
    rfl
  | cons a x ih =>
    rw [List.cons_append, Py.split_cons]
    by_cases hac : c = a
    · rw [if_pos ⟨by simp, by simp [List.isPrefixOf, hac]⟩]
      simp only [List.length_cons, List.length_nil, List.drop_succ_cons, List.drop_zero]
      rw [List.getLastD_cons]
      exact ih
    · have hpre : List.isPrefixOf [c] (a :: (x ++ c :: y)) = false := by
        simp [List.isPrefixOf]
        exact hac
      rw [if_neg (by simp [hpre])]
      cases h2 : Py.split [c] (x ++ c :: y) with
      | nil => exact absurd h2 (Py.split_ne_nil _ _)
      | cons p ps =>
        have hlen : 2 ≤ (Py.split [c] (x ++ c :: y)).length :=
          Py.two_le_split_length [c] (by simp) _ (Py.containsSub_single_append c x y)
        rw [h2] at hlen ih
        cases ps with
        | nil =>
          simp only [List.length_cons, List.length_nil] at hlen
          omega
        | cons q qs =>
          simp only [List.getLastD_cons] at ih ⊢
          exact ih

/-- No piece of a single-character split contains the separator. -/
theorem Py.not_mem_of_mem_split (c : Char) :
    ∀ s p, p ∈ Py.split [c] s → c ∉ p := by
  intro s
  induction s with
  | nil =>
    intro p hp
    simp only [Py.split_nil, List.mem_singleton] at hp
    simp [hp]
  | cons a rest ih =>
    intro p hp
    rw [Py.split_cons] at hp
    by_cases hac : c = a
    · rw [if_pos ⟨by simp, by simp [List.isPrefixOf, hac]⟩] at hp
      simp only [List.length_cons, List.length_nil, List.drop_succ_cons, List.drop_zero] at hp
      rcases List.mem_cons.mp hp with h | h
      · simp [h]
      · exact ih p h
    · have hpre : List.isPrefixOf [c] (a :: rest) = false := by
        simp [List.isPrefixOf]
        exact hac
      rw [if_neg (by simp [hpre])] at hp
      cases h2 : Py.split [c] rest with
      | nil => exact absurd h2 (Py.split_ne_nil _ _)
      | cons q qs =>
        rw [h2] at hp
        rcases List.mem_cons.mp hp with h | h
        · subst h
          intro hmem
          rcases List.mem_cons.mp hmem with h | h
          · exact hac h
          · exact ih q (h2 ▸ List.mem_cons_self q qs) h
        · exact ih p (h2 ▸ List.mem_cons_of_mem q h)

theorem Py.mem_of_mem_strip (s : PyStr) (a : Char) (h : a ∈ Py.strip s) : a ∈ s := by
  unfold Py.strip at h
  rw [List.mem_reverse] at h
  have h1 := (List.dropWhile_sublist Char.isWhitespace).mem h
  rw [List.mem_reverse] at h1
  exact (List.dropWhile_sublist Char.isWhitespace).mem h1

theorem Py.upperChar_eq_colon (c : Char) (h : Py.upperChar c = ':') : c = ':' := by
  unfold Py.upperChar at h
  split at h <;> first | exact h | exact absurd h (by decide)

theorem Py.not_mem_colon_upper (s : PyStr) (h : ':' ∉ s) : ':' ∉ Py.upper s := by
  unfold Py.upper
  intro hmem
  rw [List.mem_map] at hmem
  obtain ⟨a, ha, hupper⟩ := hmem
  exact h (Py.upperChar_eq_colon a hupper ▸ ha)

/-- The last element of a non-empty list, whatever the fallback. -/
theorem getLastD_mem {α : Type} (d : α) : ∀ l : List α, l ≠ [] → l.getLastD d ∈ l
  | [a], _ => by simp [List.getLastD]
  | a :: b :: l, _ => by
    rw [List.getLastD_cons]
    exact List.mem_cons_of_mem a (getLastD_mem a (b :: l) (by simp))

/-!
Embedding of `kg_builder/prompts/prompting.py`.
-/

/-- Normalization of an entity field shared by the two parser entry points
(`prompting.py` lines 47-48, 50-51, 109-110 and 112-113, where the same
expression is written inline): `field.split(':')[0].strip().lower()`. -/
def entityName (f : PyStr) : PyStr :=
  Py.lower (Py.strip ((Py.split [':'] f).getD 0 []))

/-- The matching type-tag normalization:
`field.split(':')[-1].strip().upper()`. -/
def entityType (f : PyStr) : PyStr :=
  Py.upper (Py.strip ((Py.split [':'] f).getLastD []))

/-- Warning emitted for a group with the wrong number of comma fields
(`prompting.py` line 43). -/
def warnArity (r : PyStr) : PyStr :=
  pyStr "Cannot get a valid triplet from " ++ r

/-- Warning emitted for a type outside the whitelist
(`prompting.py` lines 54 and 56). -/
def warnType (t : PyStr) : PyStr :=
  pyStr "Type " ++ t ++ pyStr " is not in allowed types."

/-- Body of the extraction loop for one parenthesized group
(`prompting.py` lines 40-58): first component is the surviving triplet, if
any; second component is the warnings emitted for this group. -/
def processGroup (allowed : List PyStr) (r : PyStr) : Option (List PyStr) × List PyStr :=
  if (Py.split [','] r).length ≠ 3 then (none, [warnArity r])
  else
    let split := Py.split [','] r
    let entity1 := entityName (split.getD 0 [])
    let type1 := entityType (split.getD 0 [])
    let relation := Py.lower (Py.strip (split.getD 1 []))
    let entity2 := entityName (split.getD 2 [])
    let type2 := entityType (split.getD 2 [])
    if allowed.contains type1 = false then (none, [warnType type1])
    else if allowed.contains type2 = false then (none, [warnType type2])
    else (some [entity1 ++ ':' :: type1, relation, entity2 ++ ':' :: type2], [])

/-- `ExtractorPrompting.format_triplets` (`prompting.py` lines 35-59),
returning the deduplicated surviving triplets together with the warnings the
loop emitted.  The final `list(set(valid))` of the source is modelled by
`List.dedup`, which returns the same elements without duplicates (CPython
leaves the order unspecified). -/
def formatTriplets (extractedRelations : PyStr) (allowedTypes : List PyStr) :
    List (List PyStr) × List PyStr :=
  let results := (findGroups extractedRelations).map (processGroup allowedTypes)
  ((results.filterMap Prod.fst).dedup, (results.map Prod.snd).flatten)

/-- The parsed outcome of a validation decision
(`BuilderPrompting.extract_new_triplet` returns `tuple | str | None`):
a concrete triplet, a corrective error string, or the no-op sentinel. -/
inductive Decision where
  | triplet (t : List PyStr)
  | err (msg : PyStr)
  | noop
deriving DecidableEq

/-- `BuilderPrompting` (`prompting.py` lines 62-72).  The system prompt is
produced from a resource template file that is not part of the sources, so
it is kept as an abstract field; the fields that only feed that template
(`thought_start`, `thought_end`) are omitted.  Defaults follow the source.
The quotation punctuation inside the corrective messages is elided. -/
structure BuilderPrompting where
  system_prompt : PyStr
  add_key : PyStr := pyStr "Add triplet:"
  discard_triplet_value : PyStr := pyStr "None"
  allowed_types_prompt : PyStr := pyStr "Subject and object must be of one of the following types:"
  already_extracted_prompt : PyStr := pyStr "Triplets already in the Knowledge Graph:"
  proposed_prompt : PyStr := pyStr "Proposed triplet:"
deriving DecidableEq

/-- Python `repr` of a list of strings, used in the type-violation message. -/
def pyListRepr (l : List PyStr) : PyStr :=
  let quote : PyStr := [Char.ofNat 39]
  '[' :: (List.intercalate (pyStr ", ") (l.map (fun t => quote ++ t ++ quote))) ++ [']']

/-- Corrective message for a missing marker (`prompting.py` lines 98-100). -/
def errMissingMarker (P : BuilderPrompting) : PyStr :=
  pyStr "The key " ++ P.add_key ++
    pyStr " is not present in the generated text. Please try again adding " ++
    P.add_key ++ pyStr " before the proposed triplet."

/-- Corrective message for a group without exactly 3 fields
(`prompting.py` lines 106-107). -/
def errBadArity : PyStr :=
  pyStr "A valid relation must have exactly 3 elements. Please try again producing a valid (subject:type, relation, object:type) triplet."

/-- Corrective message for a type outside the whitelist
(`prompting.py` lines 115-117). -/
def errTypeViolation (P : BuilderPrompting) (allowed : List PyStr) : PyStr :=
  pyStr "The types of the subject and object of the triplet must be in " ++
    pyListRepr allowed ++
    pyStr "You cannot add other types. Please try again returning either a valid triplet or " ++
    P.discard_triplet_value ++ pyStr "."

/-- Corrective message for a marker value that is neither a discard sentinel
nor exactly one group (`prompting.py` lines 120-122). -/
def errBadValue (P : BuilderPrompting) : PyStr :=
  pyStr "The value of the " ++ P.add_key ++
    pyStr " key is not valid. The only allowed values are: - a single valid triplet (subject:type, relation, object:type) to be added - None if the relation is already present in the graph."

/-- `BuilderPrompting.extract_new_triplet` (`prompting.py` lines 95-122). -/
def extractNewTriplet (P : BuilderPrompting) (generation : PyStr)
    (allowedEntityTypes : List PyStr) : Decision :=
  if Py.containsSub P.add_key generation = false then
    .err (errMissingMarker P)
  else
    let proposed := (Py.split P.add_key generation).getD 1 []
    if Py.containsSub P.discard_triplet_value proposed then .noop
    else
      match findGroups proposed with
      | [t0] =>
        if (Py.split [','] t0).length ≠ 3 then .err errBadArity
        else
          let triplet := Py.split [','] t0
          let entity1 := entityName (triplet.getD 0 [])
          let type1 := entityType (triplet.getD 0 [])
          let relation := Py.lower (Py.strip (triplet.getD 1 []))
          let entity2 := entityName (triplet.getD 2 [])
          let type2 := entityType (triplet.getD 2 [])
          if allowedEntityTypes.contains type1 = false
              || allowedEntityTypes.contains type2 = false then
            .err (errTypeViolation P allowedEntityTypes)
          else
            .triplet [entity1 ++ ':' :: type1, relation, entity2 ++ ':' :: type2]
      | _ => .err (errBadValue P)

/-!
Facts about the parsers.
-/

/-- The type tag recorded in a rendered entity string: the text after its
last colon (spec §3 data model). -/
def typeTagOf (s : PyStr) : PyStr := (Py.split [':'] s).getLastD []

/-- The first-piece characterization of the parsed display name: the text
before the first colon of the field. -/
theorem entityName_takeWhile (f : PyStr) :
    entityName f = Py.lower (Py.strip (f.takeWhile (fun a => a != ':'))) := by
  unfold entityName
  rw [Py.split_getD_zero]

/-- The parsed type tag contains no colon. -/
theorem entityType_colon_free (f : PyStr) : ':' ∉ entityType f := by
  unfold entityType
  apply Py.not_mem_colon_upper
  intro hmem
  have h1 := Py.mem_of_mem_strip _ _ hmem
  exact Py.not_mem_of_mem_split ':' f _
    (getLastD_mem [] _ (Py.split_ne_nil [':'] f)) h1

/-- The last-piece characterization of the parsed type tag, on a field
containing at least one colon. -/
theorem entityType_append (g h : PyStr) (hh : ':' ∉ h) :
    entityType (g ++ ':' :: h) = Py.upper (Py.strip h) := by
  unfold entityType
  rw [Py.split_getLastD_append ':' h hh g]

/-- The parsed type tag of a colon-free field is the whole field. -/
theorem entityType_no_colon (f : PyStr) (hf : ':' ∉ f) :
    entityType f = Py.upper (Py.strip f) := by
  unfold entityType
  rw [Py.split_eq_single ':' f hf]
  rfl

/-- Reading back the type tag of a rendered entity string. -/
theorem typeTagOf_entity (n t : PyStr) (ht : ':' ∉ t) :
    typeTagOf (n ++ ':' :: t) = t :=
  Py.split_getLastD_append ':' t ht n

/-- A triplet returned by the validation-decision parser always has exactly
three components, and both entity strings carry a whitelisted type tag
after their last colon. -/
theorem extractNewTriplet_triplet_shape (P : BuilderPrompting) (g : PyStr)
    (allowed : List PyStr) (t : List PyStr)
    (h : extractNewTriplet P g allowed = .triplet t) :
    ∃ s r ob, t = [s, r, ob] ∧
      allowed.contains (typeTagOf s) = true ∧
      allowed.contains (typeTagOf ob) = true := by
  simp only [extractNewTriplet] at h
  split at h
  · exact absurd h (by simp)
  · split at h
    · exact absurd h (by simp)
    · split at h
      · split at h
        · exact absurd h (by simp)
        · split at h
          · exact absurd h (by simp)
          · rename_i t0 harity hguard
            injection h with hlist
            subst hlist
            simp only [Bool.or_eq_true, Bool.not_eq_false] at hguard
            push_neg at hguard
            refine ⟨_, _, _, rfl, ?_, ?_⟩
            · rw [typeTagOf_entity _ _ (entityType_colon_free _)]
              simpa using hguard.1
            · rw [typeTagOf_entity _ _ (entityType_colon_free _)]
              simpa using hguard.2
      · exact absurd h (by simp)

/-- A triplet returned by the validation-decision parser is never empty. -/
theorem extractNewTriplet_triplet_length (P : BuilderPrompting) (g : PyStr)
    (allowed : List PyStr) (t : List PyStr)
    (h : extractNewTriplet P g allowed = .triplet t) : t.length = 3 := by
  obtain ⟨s, r, ob, hlist, -, -⟩ := extractNewTriplet_triplet_shape P g allowed t h
  simp [hlist]

/-!
Embedding of `kg_builder/utils.py` (the helpers the pipeline logic uses).
-/

/-- `get_triplet_string` (`utils.py` lines 4-5). -/
def getTripletString (triplet : List PyStr) : PyStr :=
  '(' :: (triplet.getD 0 [] ++ pyStr ", " ++ triplet.getD 1 [] ++ pyStr ", " ++
    triplet.getD 2 [] ++ [')'])

/-- `process_types` (`utils.py` lines 8-13). -/
def processTypes (allowedTypes : List PyStr) : PyStr :=
  let quote : PyStr := [Char.ofNat 39]
  let quoted := allowedTypes.map (fun t => quote ++ t ++ quote)
  pyStr "\n-" ++ List.intercalate (pyStr "\n-") quoted ++ pyStr "\n"

/-!
Prompt assembly (`prompting.py` lines 30-33, 81-93 and 124-135).
-/

/-- A chat message, Python side `{"role": ..., "content": ...}`. -/
structure Msg where
  role : PyStr
  content : PyStr
deriving DecidableEq

/-- `ExtractorPrompting` (`prompting.py` lines 18-23); as for the builder,
the system prompt comes from a resource template that is not part of the
sources and is kept abstract. -/
structure ExtractorPrompting where
  system_prompt : PyStr
  user_instruction : PyStr := pyStr "Extract relations triplet from the following passage:"
  allowed_types_prompt : PyStr := pyStr "Only extract entities of the following types:"
deriving DecidableEq

/-- `ExtractorPrompting.get_messages` (`prompting.py` lines 30-33). -/
def extractorMessages (E : ExtractorPrompting) (passage : PyStr)
    (allowedTypes : List PyStr) : List Msg :=
  [⟨pyStr "system", E.system_prompt⟩,
   ⟨pyStr "user",
    E.user_instruction ++ pyStr " " ++ passage ++ pyStr "\n" ++
      E.allowed_types_prompt ++ pyStr " " ++ processTypes allowedTypes ++ pyStr "\n"⟩]

/-- `BuilderPrompting.get_messages` (`prompting.py` lines 81-93). -/
def builderMessages (P : BuilderPrompting) (proposedRelation : List PyStr)
    (existingRelations : List PyStr) (allowedTypes : List PyStr) : List Msg :=
  let allowedTypesString := processTypes allowedTypes
  let extracted :=
    if existingRelations.length = 0 then pyStr "Empty graph"
    else List.intercalate (pyStr "\n") existingRelations
  [⟨pyStr "system", P.system_prompt⟩,
   ⟨pyStr "user",
    P.already_extracted_prompt ++ pyStr ":\n " ++ extracted ++ pyStr "\n" ++
      P.allowed_types_prompt ++ pyStr " " ++ allowedTypesString ++ pyStr "\n" ++
      P.proposed_prompt ++ pyStr ": " ++ getTripletString proposedRelation ++ pyStr "\n"⟩]

/-- `BuilderPrompting.retry_messages` (`prompting.py` lines 124-135). -/
def retryMessages (P : BuilderPrompting) (proposedRelation : List PyStr)
    (existingRelations : List PyStr) (generation : PyStr) (error : PyStr)
    (allowedEntityTypes : List PyStr) : List Msg :=
  builderMessages P proposedRelation existingRelations allowedEntityTypes ++
    [⟨pyStr "user",
      pyStr "Your last generation:\n " ++ generation ++
        pyStr " generated the following error message:" ++ error⟩]

/-!
Embedding of `kg_builder/engine.py`.  A chat engine is a function from
messages to either a transient failure or the decoded response text; the
generation options (temperature, max tokens) do not affect the embedding.
-/

/-- A transient oracle failure (timeout, rate limit, transport error). -/
structure OracleFailure where
  failure : PyStr
deriving DecidableEq

/-- The oracle boundary: `ChatEngine.chat_completion`. -/
abbrev Oracle := List Msg → Except OracleFailure PyStr

/-- The `tenacity` attempt loop wrapped around
`GeminiEngine.chat_completion` (`engine.py` line 103):
`stop_after_attempt(5)` tries the underlying call up to `remaining` times
and re-raises the last failure; `wait_exponential` only inserts real-time
delays between attempts and does not affect the result value.  The
underlying call is indexed by the attempt number to model a remote service
whose outcome can differ between attempts. -/
def attemptsLoop (call : Nat → Except OracleFailure PyStr) :
    Nat → Nat → Except OracleFailure PyStr
  | attempt, 0 => call attempt
  | attempt, 1 => call attempt
  | attempt, remaining + 2 =>
    match call attempt with
    | .ok r => .ok r
    | .error _ => attemptsLoop call (attempt + 1) (remaining + 1)

/-- `GeminiEngine.chat_completion` (`engine.py` lines 103-109): the remote
send, retried up to 5 attempts. -/
def geminiChatCompletion (send : List Msg → Nat → Except OracleFailure PyStr) : Oracle :=
  fun messages => attemptsLoop (send messages) 0 5

/-!
The Graph Store.  `kg_builder/relations.py` (`RelationsData`,
`SearchableRelations`) is not among the sources; its state and the two
operations the validation stage calls are modelled from the spec.
-/

/-- Modelled from the spec: the Graph Store state of the missing
`relations.py` (`RelationsData`), owning the fixed allowed-type whitelist,
the deduplicated triplet set and triplet-to-passages provenance (spec §3). -/
structure RelationsData where
  allowed_entity_types : List PyStr
  triplets : List (List PyStr)
  provenance : List (List PyStr × List PyStr)
deriving DecidableEq

/-- Modelled from the spec: committing one triplet with one source passage;
re-adding an existing triplet is a no-op on the set and merges provenance
instead of duplicating (spec §3, §4.3 step 5). -/
def addOneTriplet (passage : PyStr) (st : RelationsData) (t : List PyStr) : RelationsData :=
  if st.triplets.contains t then
    { st with
      provenance := st.provenance.map (fun pr =>
        if pr.1 = t then (pr.1, if pr.2.contains passage then pr.2 else pr.2 ++ [passage])
        else pr) }
  else
    { st with
      triplets := st.triplets ++ [t],
      provenance := st.provenance ++ [(t, [passage])] }

/-- Modelled from the spec: `SearchableRelations.add_triplets`, committing a
batch of triplets bound to one source passage. -/
def addTriplets (st : RelationsData) (ts : List (List PyStr)) (passage : PyStr) :
    RelationsData :=
  ts.foldl (addOneTriplet passage) st

/-- The similarity retrieval of the missing `relations.py`
(`SearchableRelations.retrieve_similar_triplets`).  Spec §4.2 leaves the
embedding function and distance metric pluggable, so retrieval is a
parameter of the validation stage: any function from the current store and
the candidate to a list of rendered similar triplets. -/
abbrev Retrieval := RelationsData → List PyStr → List PyStr

/-!
Embedding of `kg_builder/builder.py` (the validation stage).  Each run is
additionally instrumented with a trace of the observable actions - the
similarity retrievals, the oracle calls, and the store commits - which the
store-facing theorems below are stated against; the store and return values
are exactly those of the source.
-/

/-- One observable action of the validation stage. -/
inductive Event where
  | retrieval (rel : List PyStr)
  | oracleCall (messages : List Msg) (response : PyStr)
  | commit (t : List PyStr) (passage : PyStr)
deriving DecidableEq

/-- `KGBuilder.decision_from_messages` (`builder.py` lines 16-23). -/
def decisionFromMessages (oracle : Oracle) (P : BuilderPrompting)
    (allowed : List PyStr) (messages : List Msg) :
    Except OracleFailure (Decision × PyStr) :=
  match oracle messages with
  | .error f => .error f
  | .ok decoded => .ok (extractNewTriplet P decoded allowed, decoded)

/-- `KGBuilder.validate_relation` (`builder.py` lines 25-35). -/
def validateRelation (oracle : Oracle) (P : BuilderPrompting) (allowed : List PyStr)
    (proposedRelation : List PyStr) (similarRelations : List PyStr) :
    Except OracleFailure (Decision × PyStr) :=
  decisionFromMessages oracle P allowed
    (builderMessages P proposedRelation similarRelations allowed)

/-- `KGBuilder.retry_validation` (`builder.py` lines 37-49). -/
def retryValidation (oracle : Oracle) (P : BuilderPrompting) (allowed : List PyStr)
    (proposedRelation : List PyStr) (error : PyStr) (previousGeneration : PyStr)
    (similarRelations : List PyStr) :
    Except OracleFailure (Decision × PyStr) :=
  decisionFromMessages oracle P allowed
    (retryMessages P proposedRelation similarRelations previousGeneration error allowed)

/-- `builder.py` lines 70-72: an accepted decision is committed to the
store only when `len(decision) > 0`; the second component is the commit
trace of this step. -/
def commitAccepted (st : RelationsData) (passage : PyStr) (decision : List PyStr) :
    RelationsData × List Event :=
  if 0 < decision.length then
    (addTriplets st [decision] passage, [Event.commit decision passage])
  else (st, [])

/-- The body of the `build_kg` loop for one proposed relation
(`builder.py` lines 56-72): returns the updated store, the decision
appended to `added_triplets` by this iteration (if any), and the trace. -/
def buildStep (oracle : Oracle) (P : BuilderPrompting) (retrieve : Retrieval)
    (passage : PyStr) (st : RelationsData) (rel : List PyStr) :
    Except OracleFailure (RelationsData × Option (List PyStr) × List Event) :=
  let similar := retrieve st rel
  let allowed := st.allowed_entity_types
  match validateRelation oracle P allowed rel similar with
  | .error f => .error f
  | .ok (decision, generated) =>
    let firstEvents := [Event.retrieval rel,
      Event.oracleCall (builderMessages P rel similar allowed) generated]
    match decision with
    | .noop => .ok (st, none, firstEvents)
    | .triplet d =>
      let committed := commitAccepted st passage d
      .ok (committed.1, some d, firstEvents ++ committed.2)
    | .err e =>
      match retryValidation oracle P allowed rel e generated similar with
      | .error f => .error f
      | .ok (decision2, generated2) =>
        let retryEvents := firstEvents ++
          [Event.oracleCall (retryMessages P rel similar generated e allowed) generated2]
        match decision2 with
        | .noop => .ok (st, none, retryEvents)
        | .err _ => .ok (st, none, retryEvents)
        | .triplet d =>
          let committed := commitAccepted st passage d
          .ok (committed.1, some d, retryEvents ++ committed.2)

/-- `KGBuilder.build_kg` (`builder.py` lines 51-73): sequentially validate
the proposed relations against the live store; returns the final store, the
`added_triplets` return value of the source, and the trace. -/
def buildKg (oracle : Oracle) (P : BuilderPrompting) (retrieve : Retrieval)
    (proposedRelations : List (List PyStr)) (passage : PyStr) (st : RelationsData) :
    Except OracleFailure (RelationsData × List (List PyStr) × List Event) :=
  match proposedRelations with
  | [] => .ok (st, [], [])
  | rel :: rest =>
    match buildStep oracle P retrieve passage st rel with
    | .error f => .error f
    | .ok (st1, addedOpt, events) =>
      match buildKg oracle P retrieve rest passage st1 with
      | .error f => .error f
      | .ok (st2, added, events2) =>
        .ok (st2,
          (match addedOpt with
           | some d => d :: added
           | none => added),
          events ++ events2)

/-!
Facts about the validation stage.
-/

theorem addOneTriplet_allowed (passage : PyStr) (st : RelationsData) (t : List PyStr) :
    (addOneTriplet passage st t).allowed_entity_types = st.allowed_entity_types := by
  unfold addOneTriplet
  split <;> rfl

theorem addTriplets_allowed (st : RelationsData) (ts : List (List PyStr)) (passage : PyStr) :
    (addTriplets st ts passage).allowed_entity_types = st.allowed_entity_types := by
  unfold addTriplets
  induction ts generalizing st with
  | nil => rfl
  | cons t ts ih => rw [List.foldl_cons, ih, addOneTriplet_allowed]

theorem commitAccepted_allowed (st : RelationsData) (passage : PyStr) (d : List PyStr) :
    (commitAccepted st passage d).1.allowed_entity_types = st.allowed_entity_types := by
  unfold commitAccepted
  split
  · exact addTriplets_allowed st [d] passage
  · rfl

theorem commitAccepted_commits (st : RelationsData) (passage : PyStr) (d : List PyStr)
    (t : List PyStr) (p : PyStr) (h : Event.commit t p ∈ (commitAccepted st passage d).2) :
    t = d ∧ p = passage := by
  unfold commitAccepted at h
  split at h
  · simp at h
    exact h
  · simp at h

theorem validateRelation_ok (oracle : Oracle) (P : BuilderPrompting) (allowed : List PyStr)
    (rel : List PyStr) (similar : List PyStr) (dec : Decision) (gen : PyStr)
    (h : validateRelation oracle P allowed rel similar = .ok (dec, gen)) :
    extractNewTriplet P gen allowed = dec ∧
    oracle (builderMessages P rel similar allowed) = .ok gen := by
  unfold validateRelation decisionFromMessages at h
  cases ho : oracle (builderMessages P rel similar allowed) with
  | error f => rw [ho] at h; exact absurd h (by simp)
  | ok decoded =>
    rw [ho] at h
    simp only [Except.ok.injEq, Prod.mk.injEq] at h
    obtain ⟨h1, h2⟩ := h
    subst h2
    exact ⟨h1, rfl⟩

theorem retryValidation_ok (oracle : Oracle) (P : BuilderPrompting) (allowed : List PyStr)
    (rel : List PyStr) (error : PyStr) (prev : PyStr) (similar : List PyStr)
    (dec : Decision) (gen : PyStr)
    (h : retryValidation oracle P allowed rel error prev similar = .ok (dec, gen)) :
    extractNewTriplet P gen allowed = dec ∧
    oracle (retryMessages P rel similar prev error allowed) = .ok gen := by
  unfold retryValidation decisionFromMessages at h
  cases ho : oracle (retryMessages P rel similar prev error allowed) with
  | error f => rw [ho] at h; exact absurd h (by simp)
  | ok decoded =>
    rw [ho] at h
    simp only [Except.ok.injEq, Prod.mk.injEq] at h
    obtain ⟨h1, h2⟩ := h
    subst h2
    exact ⟨h1, rfl⟩

/-- Whatever one validation step does, the whitelist is untouched, and every
store commit of the step is for the current passage and is a triplet the
decision parser produced against the store's whitelist. -/
theorem buildStep_allowed_commits (oracle : Oracle) (P : BuilderPrompting)
    (retrieve : Retrieval) (passage : PyStr) (st : RelationsData) (rel : List PyStr)
    (out : RelationsData × Option (List PyStr) × List Event)
    (h : buildStep oracle P retrieve passage st rel = .ok out) :
    out.1.allowed_entity_types = st.allowed_entity_types ∧
    ∀ t p, Event.commit t p ∈ out.2.2 →
      p = passage ∧ ∃ g, extractNewTriplet P g st.allowed_entity_types = .triplet t := by
  simp only [buildStep] at h
  cases hval : validateRelation oracle P st.allowed_entity_types rel (retrieve st rel) with
  | error f => rw [hval] at h; exact absurd h (by simp)
  | ok pr =>
    obtain ⟨dec, gen⟩ := pr
    rw [hval] at h
    obtain ⟨hparse, -⟩ := validateRelation_ok _ _ _ _ _ _ _ hval
    cases dec with
    | noop =>
      simp only [Except.ok.injEq] at h
      subst h
      refine ⟨rfl, ?_⟩
      intro t p hmem
      simp at hmem
    | triplet d =>
      simp only [Except.ok.injEq] at h
      subst h
      refine ⟨commitAccepted_allowed st passage d, ?_⟩
      intro t p hmem
      simp only [List.mem_append] at hmem
      rcases hmem with hmem | hmem
      · simp at hmem
      · obtain ⟨h1, h2⟩ := commitAccepted_commits st passage d t p hmem
        subst h1
        exact ⟨h2, gen, hparse⟩
    | err e =>
      dsimp only at h
      cases hretry : retryValidation oracle P st.allowed_entity_types rel e gen
          (retrieve st rel) with
      | error f => rw [hretry] at h; exact absurd h (by simp)
      | ok pr2 =>
        obtain ⟨dec2, gen2⟩ := pr2
        rw [hretry] at h
        obtain ⟨hparse2, -⟩ := retryValidation_ok _ _ _ _ _ _ _ _ _ hretry
        cases dec2 with
        | noop =>
          simp only [Except.ok.injEq] at h
          subst h
          refine ⟨rfl, ?_⟩
          intro t p hmem
          simp at hmem
        | err e2 =>
          simp only [Except.ok.injEq] at h
          subst h
          refine ⟨rfl, ?_⟩
          intro t p hmem
          simp at hmem
        | triplet d =>
          simp only [Except.ok.injEq] at h
          subst h
          refine ⟨commitAccepted_allowed st passage d, ?_⟩
          intro t p hmem
          simp only [List.mem_append] at hmem
          rcases hmem with hmem | hmem
          · simp at hmem
          · obtain ⟨h1, h2⟩ := commitAccepted_commits st passage d t p hmem
            subst h1
            exact ⟨h2, gen2, hparse2⟩

/-- Every store commit of a whole `build_kg` run is for the run's passage
and carries whitelisted subject and object types (helper for the
commit-boundary invariant). -/
theorem buildKg_commits (oracle : Oracle) (P : BuilderPrompting) (retrieve : Retrieval)
    (rels : List (List PyStr)) (passage : PyStr) (st : RelationsData)
    (out : RelationsData × List (List PyStr) × List Event)
    (h : buildKg oracle P retrieve rels passage st = .ok out) :
    out.1.allowed_entity_types = st.allowed_entity_types ∧
    ∀ t p, Event.commit t p ∈ out.2.2 →
      p = passage ∧ ∃ s r ob, t = [s, r, ob] ∧
        st.allowed_entity_types.contains (typeTagOf s) = true ∧
        st.allowed_entity_types.contains (typeTagOf ob) = true := by
  induction rels generalizing st out with
  | nil =>
    simp only [buildKg, Except.ok.injEq] at h
    subst h
    exact ⟨rfl, by intro t p hmem; simp at hmem⟩
  | cons rel rest ih =>
    simp only [buildKg] at h
    cases hstep : buildStep oracle P retrieve passage st rel with
    | error f => rw [hstep] at h; exact absurd h (by simp)
    | ok out1 =>
      obtain ⟨st1, addedOpt, events⟩ := out1
      rw [hstep] at h
      dsimp only at h
      cases hrest : buildKg oracle P retrieve rest passage st1 with
      | error f => rw [hrest] at h; exact absurd h (by simp)
      | ok out2 =>
        obtain ⟨st2, added, events2⟩ := out2
        rw [hrest] at h
        simp only [Except.ok.injEq] at h
        subst h
        obtain ⟨hal1, hcom1⟩ := buildStep_allowed_commits _ _ _ _ _ _ _ hstep
        obtain ⟨hal2, hcom2⟩ := ih st1 _ hrest
        refine ⟨by rw [hal2, hal1], ?_⟩
        intro t p hmem
        simp only [List.mem_append] at hmem
        rcases hmem with hmem | hmem
        · obtain ⟨hp, g, hparse⟩ := hcom1 t p hmem
          obtain ⟨s, r, ob, hlist, hty1, hty2⟩ :=
            extractNewTriplet_triplet_shape P g st.allowed_entity_types t hparse
          exact ⟨hp, s, r, ob, hlist, hty1, hty2⟩
        · obtain ⟨hp, s, r, ob, hlist, hty1, hty2⟩ := hcom2 t p hmem
          rw [hal1] at hty1 hty2
          exact ⟨hp, s, r, ob, hlist, hty1, hty2⟩

/-!
Embedding of `kg_builder/extractor.py` and `kg_builder/workflow.py` (the
extraction stage and the orchestrator).  The document splitter is an
external collaborator and is a parameter, as are the two engines.
-/

/-- `RelationsExtractor.extract_from_passage` (`extractor.py` lines 10-19). -/
def extractFromPassage (oracle : Oracle) (E : ExtractorPrompting)
    (allowedTypes : List PyStr) (passage : PyStr) :
    Except OracleFailure (List (List PyStr)) :=
  match oracle (extractorMessages E passage allowedTypes) with
  | .error f => .error f
  | .ok decoded => .ok (formatTriplets decoded allowedTypes).1

/-- The first loop of `EBWorkflow.__call__` (`workflow.py` lines 77-82):
extraction over every chunk in document order, accumulating the
index-aligned list of per-passage candidate lists. -/
def extractionLoop (oracle : Oracle) (E : ExtractorPrompting)
    (allowedTypes : List PyStr) : List PyStr → Except OracleFailure (List (List (List PyStr)))
  | [] => .ok []
  | chunk :: chunks =>
    match extractFromPassage oracle E allowedTypes chunk with
    | .error f => .error f
    | .ok triplets =>
      match extractionLoop oracle E allowedTypes chunks with
      | .error f => .error f
      | .ok rest => .ok (triplets :: rest)

/-- The second loop of `EBWorkflow.__call__` (`workflow.py` lines 88-89):
`for i, c in enumerate(chunks): builder.build_kg(extracted_triplets[i],
passage=c)`.  The `added_triplets` return value of `build_kg` is discarded,
as in the source. -/
def buildLoop (oracle : Oracle) (P : BuilderPrompting) (retrieve : Retrieval)
    (extractedTriplets : List (List (List PyStr))) :
    List PyStr → Nat → RelationsData → Except OracleFailure (RelationsData × List Event)
  | [], _, st => .ok (st, [])
  | c :: chunks, i, st =>
    match buildKg oracle P retrieve (extractedTriplets.getD i []) c st with
    | .error f => .error f
    | .ok (st1, _added, events) =>
      match buildLoop oracle P retrieve extractedTriplets chunks (i + 1) st1 with
      | .error f => .error f
      | .ok (st2, events2) => .ok (st2, events ++ events2)

/-- `EBWorkflow.__call__` (`workflow.py` lines 52-92), with the external
text splitter as a parameter; returns the final store and the validation
trace. -/
def ebWorkflowCall (splitText : PyStr → List PyStr)
    (extractorOracle builderOracle : Oracle)
    (E : ExtractorPrompting) (P : BuilderPrompting) (retrieve : Retrieval)
    (text : PyStr) (relationsData : RelationsData) :
    Except OracleFailure (RelationsData × List Event) :=
  let chunks := splitText text
  match extractionLoop extractorOracle E relationsData.allowed_entity_types chunks with
  | .error f => .error f
  | .ok extractedTriplets =>
    buildLoop builderOracle P retrieve extractedTriplets chunks 0 relationsData

/-!
Concrete stub inputs used by the witnesses below.
-/

/-- A builder prompting with the source defaults and a placeholder system
prompt (the theorems hold for every prompting value). -/
def stubP : BuilderPrompting := { system_prompt := pyStr "S" }

/-- A retrieval stub returning no similar triplets. -/
def stubRetrieve : Retrieval := fun _ _ => []

/-- A store whose whitelist is the single type `T`. -/
def stubStore : RelationsData := ⟨[pyStr "T"], [], []⟩

/-- A candidate triplet over the stub whitelist. -/
def stubRel : List PyStr := [pyStr "x:T", pyStr "r", pyStr "y:T"]

/-- A deterministic oracle that always answers with a well-formed accepted
triplet. -/
def stubOracleAccept : Oracle := fun _ => .ok (pyStr "Add triplet: (a:T, r, b:T)")

/-- The result of the one-candidate stub run. -/
def stubRun : RelationsData × List (List PyStr) × List Event :=
  (buildKg stubOracleAccept stubP stubRetrieve [stubRel] (pyStr "p") stubStore).toOption.getD
    (stubStore, [], [])

/-!
The claims.
-/

/-- Claim C1: a validation decision that is an accepted triplet but is
structurally empty (zero length after normalization) is excluded from the
Graph Store by the commit step of `build_kg` (`builder.py` lines 70-72): the
store is left unchanged and no commit event happens, exactly as for a
discarded candidate, because `add_triplets` is guarded by
`len(decision) > 0`. -/
theorem c1_degenerate_accept_not_committed (st : RelationsData) (passage : PyStr)
    (decision : List PyStr) (h : decision.length = 0) :
    commitAccepted st passage decision = (st, []) := by
  unfold commitAccepted
  rw [if_neg (by omega)]

theorem c1_degenerate_accept_not_committed_witness :
    ([] : List PyStr).length = 0 ∧
      commitAccepted stubStore (pyStr "p") [] = (stubStore, []) :=
  ⟨rfl, c1_degenerate_accept_not_committed stubStore (pyStr "p") [] rfl⟩

/-- Claim C3 counterexample: splitting the entity field on the LAST colon
would parse `a:b:PERSON` into name `a:b` and type `PERSON`, rendered back
as the subject string `a:b:PERSON`; the code instead takes the name from
before the FIRST colon, so the parsed subject string is `a:PERSON`. -/
theorem c3_last_colon_counterexample :
    (formatTriplets (pyStr "(a:b:PERSON, r, c:PERSON)") [pyStr "PERSON"]).1 =
      [[pyStr "a:PERSON", pyStr "r", pyStr "c:PERSON"]] ∧
    [[pyStr "a:PERSON", pyStr "r", pyStr "c:PERSON"]] ≠
      [[pyStr "a:b:PERSON", pyStr "r", pyStr "c:PERSON"]] :=
  ⟨by decide, by decide⟩

/-- Claim C3 (amended): in a 3-field group, entity fields 1 and 3 are split
asymmetrically: the display name is the text before the FIRST colon,
case-folded and trimmed, while the type tag is the text after the last
colon, uppercased and trimmed; for a field such as `a:b:PERSON` the parsed
name is `a` and the type is `PERSON`. -/
theorem c3_name_first_colon_type_last_colon :
    (∀ f : PyStr, entityName f = Py.lower (Py.strip (f.takeWhile (fun a => a != ':')))) ∧
    (∀ g h : PyStr, ':' ∉ h → entityType (g ++ ':' :: h) = Py.upper (Py.strip h)) ∧
    (∀ f : PyStr, ':' ∉ f → entityType f = Py.upper (Py.strip f)) :=
  ⟨entityName_takeWhile, entityType_append, entityType_no_colon⟩

theorem c3_name_first_colon_type_last_colon_witness :
    (':' ∉ pyStr "PERSON") ∧
      entityName (pyStr "a:b:PERSON") = pyStr "a" ∧
      entityType (pyStr "a:b" ++ ':' :: pyStr "PERSON") = Py.upper (Py.strip (pyStr "PERSON")) :=
  ⟨by decide, by decide,
    c3_name_first_colon_type_last_colon.2.1 (pyStr "a:b") (pyStr "PERSON") (by decide)⟩

/-- Claim C4: parsing the example response in extraction mode with allowed
types PERSON and LOCATION yields exactly the one expected triplet (and no
warnings); the subject entity is `alex` of type `PERSON`, the relation is
`graduated from`, and the object entity is `columbia university` of type
`LOCATION`, entities being rendered as `name:TYPE` strings. -/
theorem c4_example_parse :
    formatTriplets (pyStr "(alex:PERSON, graduated from, columbia university:LOCATION)")
      [pyStr "PERSON", pyStr "LOCATION"] =
    ([[pyStr "alex:PERSON", pyStr "graduated from", pyStr "columbia university:LOCATION"]],
      []) := by
  decide

/-- Claim C6: commit-boundary invariant of the validation stage: every
triplet committed to the Graph Store during a `build_kg` run has exactly
three components and both its subject's and its object's type tag (the text
after the last colon of the rendered entity) belong to the store's
`allowed_entity_types`; the decision parser returns a type-violation error
signal instead of a triplet whenever either parsed type is outside the
whitelist, so no violation ever reaches commit. -/
theorem c6_commit_type_invariant (oracle : Oracle) (P : BuilderPrompting)
    (retrieve : Retrieval) (rels : List (List PyStr)) (passage : PyStr)
    (st : RelationsData) (out : RelationsData × List (List PyStr) × List Event)
    (h : buildKg oracle P retrieve rels passage st = .ok out)
    (t : List PyStr) (p : PyStr) (hmem : Event.commit t p ∈ out.2.2) :
    ∃ s r ob, t = [s, r, ob] ∧
      st.allowed_entity_types.contains (typeTagOf s) = true ∧
      st.allowed_entity_types.contains (typeTagOf ob) = true :=
  ((buildKg_commits oracle P retrieve rels passage st out h).2 t p hmem).2

theorem c6_commit_type_invariant_witness :
    ∃ s r ob, [pyStr "a:T", pyStr "r", pyStr "b:T"] = [s, r, ob] ∧
      stubStore.allowed_entity_types.contains (typeTagOf s) = true ∧
      stubStore.allowed_entity_types.contains (typeTagOf ob) = true :=
  c6_commit_type_invariant stubOracleAccept stubP stubRetrieve [stubRel] (pyStr "p")
    stubStore stubRun (by rfl) [pyStr "a:T", pyStr "r", pyStr "b:T"] (pyStr "p")
    (by decide)

/-- Claim C9: in extraction mode, a 3-field group in which either entity's
type is outside the whitelist contributes no triplet at all (the whole
triplet is discarded, neither entity survives on its own) and exactly one
warning; and the list `format_triplets` finally returns never contains
duplicate triplets. -/
theorem c9_type_violation_discard_and_dedup (s : PyStr) (allowed : List PyStr) :
    (formatTriplets s allowed).1.Nodup ∧
    ∀ r : PyStr, (Py.split [','] r).length = 3 →
      (allowed.contains (entityType ((Py.split [','] r).getD 0 [])) = false ∨
       allowed.contains (entityType ((Py.split [','] r).getD 2 [])) = false) →
      (processGroup allowed r).1 = none ∧ (processGroup allowed r).2.length = 1 := by
  constructor
  · exact List.nodup_dedup _
  · intro r h3 hviol
    unfold processGroup
    rw [if_neg (by simp [h3])]
    by_cases h1 : allowed.contains (entityType ((Py.split [','] r).getD 0 [])) = false
    · rw [if_pos h1]
      exact ⟨rfl, rfl⟩
    · rw [if_neg h1]
      rcases hviol with hv | hv
      · exact absurd hv h1
      · rw [if_pos hv]
        exact ⟨rfl, rfl⟩

theorem c9_type_violation_discard_and_dedup_witness :
    (Py.split [','] (pyStr "a:QQ, r, b:T")).length = 3 ∧
    [pyStr "T"].contains (entityType ((Py.split [','] (pyStr "a:QQ, r, b:T")).getD 0 [])) = false ∧
    (processGroup [pyStr "T"] (pyStr "a:QQ, r, b:T")).1 = none ∧
    (processGroup [pyStr "T"] (pyStr "a:QQ, r, b:T")).2.length = 1 :=
  ⟨by decide, by decide,
    ((c9_type_violation_discard_and_dedup (pyStr "") [pyStr "T"]).2 _ (by decide)
      (Or.inl (by decide))).1,
    ((c9_type_violation_discard_and_dedup (pyStr "") [pyStr "T"]).2 _ (by decide)
      (Or.inl (by decide))).2⟩

/-- Exhausted retries: when every attempt of the underlying call fails with
the same failure, the bounded attempt loop re-raises that failure. -/
theorem attemptsLoop_all_fail (call : Nat → Except OracleFailure PyStr) (f : OracleFailure)
    (hfail : ∀ attempt, call attempt = .error f) :
    ∀ remaining attempt, attemptsLoop call attempt remaining = .error f := by
  intro remaining
  induction remaining with
  | zero => intro a; simpa [attemptsLoop] using hfail a
  | succ n ih =>
    intro a
    cases n with
    | zero => simpa [attemptsLoop] using hfail a
    | succ m =>
      simp only [attemptsLoop, hfail a]
      exact ih (a + 1)

/-- Claim C2 (amended): when an oracle call made during validation of a
candidate keeps failing transiently until the call layer's five bounded
exponential-backoff attempts are exhausted, the exhausted failure is
re-raised and propagates out of `build_kg` unchanged, aborting the whole
run: the failing candidate is not skipped, and no remaining candidate of
the run is processed (there is no per-candidate error handling in
`build_kg`). -/
theorem c2_exhausted_failure_aborts (f : OracleFailure) (P : BuilderPrompting)
    (retrieve : Retrieval) (rel : List PyStr) (rest : List (List PyStr))
    (passage : PyStr) (st : RelationsData) :
    buildKg (geminiChatCompletion (fun _ _ => .error f)) P retrieve (rel :: rest)
      passage st = .error f := by
  have h1 : geminiChatCompletion (fun _ _ => .error f)
      (builderMessages P rel (retrieve st rel) st.allowed_entity_types) = .error f :=
    attemptsLoop_all_fail _ f (fun _ => rfl) 5 0
  simp only [buildKg, buildStep, validateRelation, decisionFromMessages, h1]

/-- Claim C2 counterexample: a two-candidate run against an oracle whose
transient failure persists through all five attempts aborts with the
propagated failure; it does not skip the first candidate and continue with
the second. -/
theorem c2_exhausted_failure_aborts_counterexample :
    buildKg (geminiChatCompletion (fun _ _ => .error ⟨pyStr "rate limit"⟩)) stubP
      stubRetrieve [stubRel, [pyStr "x2:T", pyStr "r2", pyStr "y2:T"]] (pyStr "p")
      stubStore = .error ⟨pyStr "rate limit"⟩ := by
  rfl

/-- Claim C5: the exactly-one-retry protocol of `build_kg` for one
candidate.  If the first validation parse yields an error signal, exactly
one retry is issued with the error-annotated retry prompt; if the retry
parse yields a concrete triplet the candidate is committed, and if it
yields an error signal or a no-op the candidate is discarded with no
further retry; in every case processing continues with the remaining
candidates of the run. -/
theorem c5_single_retry_protocol (oracle : Oracle) (P : BuilderPrompting)
    (retrieve : Retrieval) (rel : List PyStr) (rest : List (List PyStr))
    (passage : PyStr) (st : RelationsData) (g1 e g2 : PyStr)
    (h1 : oracle (builderMessages P rel (retrieve st rel) st.allowed_entity_types) = .ok g1)
    (h2 : extractNewTriplet P g1 st.allowed_entity_types = .err e)
    (h3 : oracle (retryMessages P rel (retrieve st rel) g1 e st.allowed_entity_types) =
      .ok g2) :
    buildKg oracle P retrieve (rel :: rest) passage st =
      match extractNewTriplet P g2 st.allowed_entity_types with
      | .triplet d =>
        Except.map (fun x => (x.1, d :: x.2.1,
            ([Event.retrieval rel,
              Event.oracleCall (builderMessages P rel (retrieve st rel)
                st.allowed_entity_types) g1,
              Event.oracleCall (retryMessages P rel (retrieve st rel) g1 e
                st.allowed_entity_types) g2,
              Event.commit d passage] : List Event) ++ x.2.2))
          (buildKg oracle P retrieve rest passage (addTriplets st [d] passage))
      | _ =>
        Except.map (fun x => (x.1, x.2.1,
            ([Event.retrieval rel,
              Event.oracleCall (builderMessages P rel (retrieve st rel)
                st.allowed_entity_types) g1,
              Event.oracleCall (retryMessages P rel (retrieve st rel) g1 e
                st.allowed_entity_types) g2] : List Event) ++ x.2.2))
          (buildKg oracle P retrieve rest passage st) := by
  cases hparse2 : extractNewTriplet P g2 st.allowed_entity_types with
  | triplet d =>
    have hlen := extractNewTriplet_triplet_length P g2 st.allowed_entity_types d hparse2
    have hca : commitAccepted st passage d =
        (addTriplets st [d] passage, [Event.commit d passage]) := by
      unfold commitAccepted
      rw [if_pos (by omega)]
    simp only [buildKg, buildStep, validateRelation, retryValidation, decisionFromMessages,
      h1, h2, h3, hparse2, hca]
    cases hrest : buildKg oracle P retrieve rest passage (addTriplets st [d] passage) with
    | error f => simp [Except.map]
    | ok out => simp [Except.map]
  | err e2 =>
    simp only [buildKg, buildStep, validateRelation, retryValidation, decisionFromMessages,
      h1, h2, h3, hparse2]
    cases hrest : buildKg oracle P retrieve rest passage st with
    | error f => simp [Except.map]
    | ok out => simp [Except.map]
  | noop =>
    simp only [buildKg, buildStep, validateRelation, retryValidation, decisionFromMessages,
      h1, h2, h3, hparse2]
    cases hrest : buildKg oracle P retrieve rest passage st with
    | error f => simp [Except.map]
    | ok out => simp [Except.map]

/-- A deterministic stub oracle that answers the first (2-message)
validation prompt with a malformed response and the (3-message) retry
prompt with a well-formed accepted triplet. -/
def stubOracleRetry : Oracle := fun msgs =>
  if msgs.length = 3 then .ok (pyStr "Add triplet: (a:T, r, b:T)") else .ok (pyStr "bad")

theorem c5_single_retry_protocol_witness :
    (stubOracleRetry (builderMessages stubP stubRel (stubRetrieve stubStore stubRel)
        stubStore.allowed_entity_types) = .ok (pyStr "bad")) ∧
    (extractNewTriplet stubP (pyStr "bad") stubStore.allowed_entity_types =
      .err (errMissingMarker stubP)) ∧
    (stubOracleRetry (retryMessages stubP stubRel (stubRetrieve stubStore stubRel)
        (pyStr "bad") (errMissingMarker stubP) stubStore.allowed_entity_types) =
      .ok (pyStr "Add triplet: (a:T, r, b:T)")) ∧
    buildKg stubOracleRetry stubP stubRetrieve [stubRel] (pyStr "p") stubStore =
      .ok (addTriplets stubStore [[pyStr "a:T", pyStr "r", pyStr "b:T"]] (pyStr "p"),
        [[pyStr "a:T", pyStr "r", pyStr "b:T"]],
        [Event.retrieval stubRel,
         Event.oracleCall (builderMessages stubP stubRel [] [pyStr "T"]) (pyStr "bad"),
         Event.oracleCall (retryMessages stubP stubRel [] (pyStr "bad")
           (errMissingMarker stubP) [pyStr "T"]) (pyStr "Add triplet: (a:T, r, b:T)"),
         Event.commit [pyStr "a:T", pyStr "r", pyStr "b:T"] (pyStr "p")]) :=
  ⟨rfl, by decide, rfl,
    c5_single_retry_protocol stubOracleRetry stubP stubRetrieve stubRel [] (pyStr "p")
      stubStore (pyStr "bad") (errMissingMarker stubP)
      (pyStr "Add triplet: (a:T, r, b:T)") rfl (by decide) rfl⟩

/-- Classifier for similarity-retrieval events. -/
def Event.isRetrievalEvent : Event → Bool
  | .retrieval _ => true
  | _ => false

/-- Claim C8: when the first validation attempt of a candidate yields an
error signal, the retry prompt is built from the same similar-triplets list
that was retrieved before the first attempt: the whole step performs
exactly one similarity retrieval, and the retry oracle call's prompt is
`retry_messages` instantiated with that same retrieved list. -/
theorem c8_retry_reuses_first_retrieval (oracle : Oracle) (P : BuilderPrompting)
    (retrieve : Retrieval) (passage : PyStr) (st : RelationsData) (rel : List PyStr)
    (g1 e g2 : PyStr) (out : RelationsData × Option (List PyStr) × List Event)
    (h1 : oracle (builderMessages P rel (retrieve st rel) st.allowed_entity_types) = .ok g1)
    (h2 : extractNewTriplet P g1 st.allowed_entity_types = .err e)
    (h3 : oracle (retryMessages P rel (retrieve st rel) g1 e st.allowed_entity_types) =
      .ok g2)
    (hstep : buildStep oracle P retrieve passage st rel = .ok out) :
    out.2.2.countP Event.isRetrievalEvent = 1 ∧
    Event.oracleCall (retryMessages P rel (retrieve st rel) g1 e st.allowed_entity_types)
      g2 ∈ out.2.2 := by
  simp only [buildStep, validateRelation, retryValidation, decisionFromMessages,
    h1, h2, h3] at hstep
  cases hparse2 : extractNewTriplet P g2 st.allowed_entity_types with
  | triplet d =>
    rw [hparse2] at hstep
    simp only [Except.ok.injEq] at hstep
    subst hstep
    constructor
    · simp only [List.countP_append, List.countP_cons, List.countP_nil,
        Event.isRetrievalEvent]
      have : (commitAccepted st passage d).2.countP Event.isRetrievalEvent = 0 := by
        unfold commitAccepted
        split <;> simp [Event.isRetrievalEvent]
      simp [this, Event.isRetrievalEvent]
    · simp
  | err e2 =>
    rw [hparse2] at hstep
    simp only [Except.ok.injEq] at hstep
    subst hstep
    constructor
    · simp [List.countP_cons, Event.isRetrievalEvent]
    · simp
  | noop =>
    rw [hparse2] at hstep
    simp only [Except.ok.injEq] at hstep
    subst hstep
    constructor
    · simp [List.countP_cons, Event.isRetrievalEvent]
    · simp

theorem c8_retry_reuses_first_retrieval_witness :
    (stubOracleRetry (builderMessages stubP stubRel (stubRetrieve stubStore stubRel)
        stubStore.allowed_entity_types) = .ok (pyStr "bad")) ∧
    (extractNewTriplet stubP (pyStr "bad") stubStore.allowed_entity_types =
      .err (errMissingMarker stubP)) ∧
    ((buildStep stubOracleRetry stubP stubRetrieve (pyStr "p") stubStore
        stubRel).toOption.getD (stubStore, none, [])).2.2.countP Event.isRetrievalEvent
      = 1 ∧
    Event.oracleCall (retryMessages stubP stubRel (stubRetrieve stubStore stubRel)
        (pyStr "bad") (errMissingMarker stubP) stubStore.allowed_entity_types)
        (pyStr "Add triplet: (a:T, r, b:T)") ∈
      ((buildStep stubOracleRetry stubP stubRetrieve (pyStr "p") stubStore
        stubRel).toOption.getD (stubStore, none, [])).2.2 :=
  ⟨rfl, by decide,
    (c8_retry_reuses_first_retrieval stubOracleRetry stubP stubRetrieve (pyStr "p")
      stubStore stubRel (pyStr "bad") (errMissingMarker stubP)
      (pyStr "Add triplet: (a:T, r, b:T)") _ rfl (by decide) rfl (by rfl)).1,
    (c8_retry_reuses_first_retrieval stubOracleRetry stubP stubRetrieve (pyStr "p")
      stubStore stubRel (pyStr "bad") (errMissingMarker stubP)
      (pyStr "Add triplet: (a:T, r, b:T)") _ rfl (by decide) rfl (by rfl)).2⟩

/-!
The orchestrator as two phases.
-/

/-- The per-pair formulation of the validation phase: process the
(candidate-list, passage) pairs strictly in order, threading the store. -/
def validatePhase (oracle : Oracle) (P : BuilderPrompting) (retrieve : Retrieval) :
    List (List (List PyStr) × PyStr) → RelationsData →
    Except OracleFailure (RelationsData × List Event)
  | [], st => .ok (st, [])
  | (ts, c) :: rest, st =>
    match buildKg oracle P retrieve ts c st with
    | .error f => .error f
    | .ok (st1, _added, events) =>
      match validatePhase oracle P retrieve rest st1 with
      | .error f => .error f
      | .ok (st2, events2) => .ok (st2, events ++ events2)

theorem extractionLoop_length (oracle : Oracle) (E : ExtractorPrompting)
    (allowed : List PyStr) :
    ∀ chunks exts, extractionLoop oracle E allowed chunks = .ok exts →
      exts.length = chunks.length := by
  intro chunks
  induction chunks with
  | nil =>
    intro exts h
    simp only [extractionLoop, Except.ok.injEq] at h
    subst h
    rfl
  | cons c cs ih =>
    intro exts h
    simp only [extractionLoop] at h
    cases h1 : extractFromPassage oracle E allowed c with
    | error f => rw [h1] at h; exact absurd h (by simp)
    | ok t =>
      rw [h1] at h
      dsimp only at h
      cases h2 : extractionLoop oracle E allowed cs with
      | error f => rw [h2] at h; exact absurd h (by simp)
      | ok rest =>
        rw [h2] at h
        simp only [Except.ok.injEq] at h
        subst h
        simp [ih rest h2]

theorem extractionLoop_get (oracle : Oracle) (E : ExtractorPrompting)
    (allowed : List PyStr) :
    ∀ chunks exts, extractionLoop oracle E allowed chunks = .ok exts →
      ∀ i (hi : i < chunks.length) (hi2 : i < exts.length),
        extractFromPassage oracle E allowed (chunks.get ⟨i, hi⟩) =
          .ok (exts.get ⟨i, hi2⟩) := by
  intro chunks
  induction chunks with
  | nil =>
    intro exts h i hi
    simp at hi
  | cons c cs ih =>
    intro exts h i hi hi2
    simp only [extractionLoop] at h
    cases h1 : extractFromPassage oracle E allowed c with
    | error f => rw [h1] at h; exact absurd h (by simp)
    | ok t =>
      rw [h1] at h
      dsimp only at h
      cases h2 : extractionLoop oracle E allowed cs with
      | error f => rw [h2] at h; exact absurd h (by simp)
      | ok rest =>
        rw [h2] at h
        simp only [Except.ok.injEq] at h
        subst h
        cases i with
        | zero => simpa using h1
        | succ j =>
          have hj : j < cs.length := by simpa using hi
          have hj2 : j < rest.length := by simpa using hi2
          simpa using ih rest h2 j hj hj2

/-- The second workflow loop with its running index is the in-order fold of
`build_kg` over the zip of the extraction results with the passages. -/
theorem buildLoop_eq_validatePhase (oracle : Oracle) (P : BuilderPrompting)
    (retrieve : Retrieval) (exts : List (List (List PyStr))) :
    ∀ chunks i st, exts.length = i + chunks.length →
      buildLoop oracle P retrieve exts chunks i st =
        validatePhase oracle P retrieve ((exts.drop i).zip chunks) st := by
  intro chunks
  induction chunks with
  | nil =>
    intro i st _
    simp [buildLoop, validatePhase, List.zip_nil_right]
  | cons c cs ih =>
    intro i st hlen
    have hi : i < exts.length := by simp at hlen; omega
    have hdrop : exts.drop i = exts[i] :: exts.drop (i + 1) :=
      List.drop_eq_getElem_cons hi
    have hgetD : exts.getD i [] = exts[i] := by
      simp [List.getD_eq_getElem?_getD, List.getElem?_eq_getElem hi]
    rw [hdrop, List.zip_cons_cons]
    simp only [buildLoop, validatePhase, hgetD]
    cases hb : buildKg oracle P retrieve exts[i] c st with
    | error f => rfl
    | ok out =>
      obtain ⟨st1, added, events⟩ := out
      dsimp only
      rw [ih (i + 1) st1 (by simp at hlen ⊢; omega)]

/-- Claim C7: the orchestrator runs extraction over every passage in
document order, accumulating an index-aligned list of per-passage candidate
lists (position i holds the parse of the oracle's answer for passage i),
before any validation begins; it then runs validation strictly in passage
order, and for each index i validates the candidates of
`extracted_triplets[i]` with passage `chunks[i]` as the provenance
passage - the whole call equals the in-order fold of `build_kg` over the
zip of the extraction results with the passages. -/
theorem c7_two_phase_orchestration (splitText : PyStr → List PyStr)
    (extractorOracle builderOracle : Oracle) (E : ExtractorPrompting)
    (P : BuilderPrompting) (retrieve : Retrieval) (text : PyStr)
    (rd : RelationsData) (exts : List (List (List PyStr)))
    (hext : extractionLoop extractorOracle E rd.allowed_entity_types (splitText text) =
      .ok exts) :
    exts.length = (splitText text).length ∧
    (∀ i (hi : i < (splitText text).length) (hi2 : i < exts.length),
      extractFromPassage extractorOracle E rd.allowed_entity_types
        ((splitText text).get ⟨i, hi⟩) = .ok (exts.get ⟨i, hi2⟩)) ∧
    ebWorkflowCall splitText extractorOracle builderOracle E P retrieve text rd =
      validatePhase builderOracle P retrieve (exts.zip (splitText text)) rd := by
  refine ⟨extractionLoop_length _ _ _ _ _ hext,
    extractionLoop_get _ _ _ _ _ hext, ?_⟩
  unfold ebWorkflowCall
  dsimp only
  rw [hext]
  dsimp only
  have := buildLoop_eq_validatePhase builderOracle P retrieve exts (splitText text) 0 rd
    (by simpa using extractionLoop_length _ _ _ _ _ hext)
  simpa using this

/-- An extractor prompting with the source defaults and a placeholder
system prompt. -/
def stubE : ExtractorPrompting := { system_prompt := pyStr "S" }

/-- A splitter stub producing one passage. -/
def stubSplit : PyStr → List PyStr := fun _ => [pyStr "c1"]

/-- A deterministic extraction oracle proposing one triplet. -/
def stubExtractorOracle : Oracle := fun _ => .ok (pyStr "(a:T, r, b:T)")

theorem c7_two_phase_orchestration_witness :
    (extractionLoop stubExtractorOracle stubE stubStore.allowed_entity_types
        (stubSplit (pyStr "doc")) = .ok [[[pyStr "a:T", pyStr "r", pyStr "b:T"]]]) ∧
    ebWorkflowCall stubSplit stubExtractorOracle stubOracleAccept stubE stubP stubRetrieve
        (pyStr "doc") stubStore =
      validatePhase stubOracleAccept stubP stubRetrieve
        ([[[pyStr "a:T", pyStr "r", pyStr "b:T"]]].zip (stubSplit (pyStr "doc")))
        stubStore :=
  ⟨rfl,
    (c7_two_phase_orchestration stubSplit stubExtractorOracle stubOracleAccept stubE stubP
      stubRetrieve (pyStr "doc") stubStore [[[pyStr "a:T", pyStr "r", pyStr "b:T"]]]
      rfl).2.2⟩

/-!
Checked variants of the two parser entry points, for the totality claim:
every Python list indexing of the source (`split(add_key)[1]`, the single
group `t[0]`, the three comma fields `triplet[0..2]`, and the colon pieces
`[0]` and `[-1]`) is modelled by the fallible `getElem?`, so an
out-of-range index - an `IndexError` in Python - surfaces as `none`.  The
refinement theorem below shows the checked variants never return `none` and
agree with the total embedding: every indexing is in range thanks to the
preceding membership, group-count, or arity check (the colon splits are
always non-empty).
-/

theorem getElem?_eq_some_getD {α : Type} (l : List α) (n : Nat) (d : α)
    (h : n < l.length) : l[n]? = some (l.getD n d) := by
  simp [List.getD_eq_getElem?_getD, List.getElem?_eq_getElem h]

theorem getElem?_last_eq_some_getLastD {α : Type} (l : List α) (d : α) (h : l ≠ []) :
    l[l.length - 1]? = some (l.getLastD d) := by
  rw [← List.getLast?_eq_getElem?]
  cases hl : l.getLast? with
  | none => exact absurd (List.getLast?_eq_none_iff.mp hl) h
  | some y => simp [List.getLastD_eq_getLast?, hl]

/-- Checked `field.split(':')[0].strip().lower()`. -/
def entityNameChecked (f : PyStr) : Option PyStr := do
  let piece ← (Py.split [':'] f)[0]?
  some (Py.lower (Py.strip piece))

/-- Checked `field.split(':')[-1].strip().upper()`; Python `l[-1]` raises
exactly when `l` is empty, so it is modelled as `l[len(l) - 1]?`. -/
def entityTypeChecked (f : PyStr) : Option PyStr := do
  let piece ← (Py.split [':'] f)[(Py.split [':'] f).length - 1]?
  some (Py.upper (Py.strip piece))

/-- Checked variant of `processGroup` (extraction-mode loop body). -/
def processGroupChecked (allowed : List PyStr) (r : PyStr) :
    Option (Option (List PyStr) × List PyStr) :=
  if (Py.split [','] r).length ≠ 3 then some (none, [warnArity r])
  else do
    let f0 ← (Py.split [','] r)[0]?
    let f1 ← (Py.split [','] r)[1]?
    let f2 ← (Py.split [','] r)[2]?
    let entity1 ← entityNameChecked f0
    let type1 ← entityTypeChecked f0
    let relation := Py.lower (Py.strip f1)
    let entity2 ← entityNameChecked f2
    let type2 ← entityTypeChecked f2
    if allowed.contains type1 = false then some (none, [warnType type1])
    else if allowed.contains type2 = false then some (none, [warnType type2])
    else some (some [entity1 ++ ':' :: type1, relation, entity2 ++ ':' :: type2], [])

/-- Checked variant of `ExtractorPrompting.format_triplets`. -/
def formatTripletsChecked (extractedRelations : PyStr) (allowedTypes : List PyStr) :
    Option (List (List PyStr) × List PyStr) := do
  let results ← (findGroups extractedRelations).mapM (processGroupChecked allowedTypes)
  some ((results.filterMap Prod.fst).dedup, (results.map Prod.snd).flatten)

/-- Checked variant of `BuilderPrompting.extract_new_triplet`. -/
def extractNewTripletChecked (P : BuilderPrompting) (generation : PyStr)
    (allowedEntityTypes : List PyStr) : Option Decision :=
  if Py.containsSub P.add_key generation = false then
    some (.err (errMissingMarker P))
  else do
    let proposed ← (Py.split P.add_key generation)[1]?
    if Py.containsSub P.discard_triplet_value proposed then some .noop
    else
      match findGroups proposed with
      | [t0] =>
        if (Py.split [','] t0).length ≠ 3 then some (.err errBadArity)
        else do
          let f0 ← (Py.split [','] t0)[0]?
          let f1 ← (Py.split [','] t0)[1]?
          let f2 ← (Py.split [','] t0)[2]?
          let entity1 ← entityNameChecked f0
          let type1 ← entityTypeChecked f0
          let relation := Py.lower (Py.strip f1)
          let entity2 ← entityNameChecked f2
          let type2 ← entityTypeChecked f2
          if allowedEntityTypes.contains type1 = false
              || allowedEntityTypes.contains type2 = false then
            some (.err (errTypeViolation P allowedEntityTypes))
          else
            some (.triplet [entity1 ++ ':' :: type1, relation, entity2 ++ ':' :: type2])
      | _ => some (.err (errBadValue P))

theorem entityNameChecked_eq (f : PyStr) :
    entityNameChecked f = some (entityName f) := by
  unfold entityNameChecked entityName
  rw [getElem?_eq_some_getD (Py.split [':'] f) 0 []
    (List.length_pos.mpr (Py.split_ne_nil [':'] f))]
  rfl

theorem entityTypeChecked_eq (f : PyStr) :
    entityTypeChecked f = some (entityType f) := by
  unfold entityTypeChecked entityType
  rw [getElem?_last_eq_some_getLastD (Py.split [':'] f) [] (Py.split_ne_nil [':'] f)]
  rfl

theorem processGroupChecked_eq (allowed : List PyStr) (r : PyStr) :
    processGroupChecked allowed r = some (processGroup allowed r) := by
  unfold processGroupChecked processGroup
  by_cases h3 : (Py.split [','] r).length ≠ 3
  · rw [if_pos h3, if_pos h3]
  · rw [if_neg h3, if_neg h3]
    have hlen : (Py.split [','] r).length = 3 := by omega
    have h0 := getElem?_eq_some_getD (Py.split [','] r) 0 [] (by omega)
    have h1 := getElem?_eq_some_getD (Py.split [','] r) 1 [] (by omega)
    have h2 := getElem?_eq_some_getD (Py.split [','] r) 2 [] (by omega)
    simp only [h0, h1, h2, entityNameChecked_eq, entityTypeChecked_eq, Option.bind_eq_bind,
      Option.some_bind]
    split
    · rfl
    · split <;> rfl

theorem mapM_eq_some_map {α β : Type} (fchk : α → Option β) (f : α → β)
    (hf : ∀ a, fchk a = some (f a)) :
    ∀ l : List α, l.mapM fchk = some (l.map f) := by
  intro l
  induction l with
  | nil => rfl
  | cons a t ih =>
    rw [List.mapM_cons, hf a, ih]
    rfl

theorem formatTripletsChecked_eq (s : PyStr) (allowed : List PyStr) :
    formatTripletsChecked s allowed = some (formatTriplets s allowed) := by
  unfold formatTripletsChecked formatTriplets
  rw [mapM_eq_some_map (processGroupChecked allowed) (processGroup allowed)
    (processGroupChecked_eq allowed) (findGroups s)]
  rfl

theorem extractNewTripletChecked_eq (P : BuilderPrompting) (g : PyStr)
    (allowed : List PyStr) (hkey : P.add_key ≠ []) :
    extractNewTripletChecked P g allowed = some (extractNewTriplet P g allowed) := by
  unfold extractNewTripletChecked extractNewTriplet
  by_cases hmarker : Py.containsSub P.add_key g = false
  · rw [if_pos hmarker, if_pos hmarker]
  · rw [if_neg hmarker, if_neg hmarker]
    have hcontains : Py.containsSub P.add_key g = true := by
      cases hc : Py.containsSub P.add_key g with
      | false => exact absurd hc hmarker
      | true => rfl
    have hlen := Py.two_le_split_length P.add_key hkey g hcontains
    rw [getElem?_eq_some_getD (Py.split P.add_key g) 1 [] (by omega)]
    show (if _ then _ else _) = _
    by_cases hdisc : Py.containsSub P.discard_triplet_value
        ((Py.split P.add_key g).getD 1 [])
    · rw [if_pos hdisc, if_pos hdisc]
    · rw [if_neg hdisc, if_neg hdisc]
      cases hg : findGroups ((Py.split P.add_key g).getD 1 []) with
      | nil => rfl
      | cons t0 ts =>
        cases ts with
        | cons t1 ts2 => rfl
        | nil =>
          dsimp only
          by_cases h3 : (Py.split [','] t0).length ≠ 3
          · rw [if_pos h3, if_pos h3]
          · rw [if_neg h3, if_neg h3]
            have h0 := getElem?_eq_some_getD (Py.split [','] t0) 0 [] (by omega)
            have h1 := getElem?_eq_some_getD (Py.split [','] t0) 1 [] (by omega)
            have h2 := getElem?_eq_some_getD (Py.split [','] t0) 2 [] (by omega)
            simp only [h0, h1, h2, entityNameChecked_eq, entityTypeChecked_eq,
              Option.bind_eq_bind, Option.some_bind]
            split <;> rfl

/-- Claim C10: both parser entry points are total on every input: the
checked variants, in which every Python list indexing may fail, never
return `none` and agree with the embedding: extraction-mode parsing always
returns a (possibly empty) triplet list plus warnings, and
validation-decision parsing always returns a triplet, an error string, or
the no-op sentinel - each indexing is guarded by the preceding membership,
group-count, or arity check. -/
theorem c10_parsers_total (P : BuilderPrompting) (g s : PyStr) (allowed : List PyStr)
    (hkey : P.add_key ≠ []) :
    extractNewTripletChecked P g allowed = some (extractNewTriplet P g allowed) ∧
    formatTripletsChecked s allowed = some (formatTriplets s allowed) :=
  ⟨extractNewTripletChecked_eq P g allowed hkey, formatTripletsChecked_eq s allowed⟩

theorem c10_parsers_total_witness :
    (stubP.add_key ≠ []) ∧
    extractNewTripletChecked stubP (pyStr "bad") [pyStr "T"] =
      some (extractNewTriplet stubP (pyStr "bad") [pyStr "T"]) ∧
    formatTripletsChecked (pyStr "(a:T, r, b:T)") [pyStr "T"] =
      some (formatTriplets (pyStr "(a:T, r, b:T)") [pyStr "T"]) :=
  ⟨by decide,
    (c10_parsers_total stubP (pyStr "bad") (pyStr "(a:T, r, b:T)") [pyStr "T"]
      (by decide)).1,
    (c10_parsers_total stubP (pyStr "bad") (pyStr "(a:T, r, b:T)") [pyStr "T"]
      (by decide)).2⟩

end KG
